import Mathlib

/-!
Verification of the KPC AI assistant core (`src/ai-assistant.ts`, `src/mcp-client.ts`).

The TypeScript source is shallowly embedded: strings are `List Char` (JS string
indexing in the relevant code never splits surrogate pairs, so code points are a
faithful unit), `JSON.parse` is an executable recursive-descent JSON parser,
regular-expression steps of `parseToolCallResponse` are modelled by the
equivalent first-occurrence scanners, and the two external collaborators
(the Ollama HTTP backend and the MCP client/transport) are abstracted as
deterministic response functions carried in an `Env` record.  Effectful
methods that can throw are modelled with `Option` results; methods that the
source wraps in `try`/`catch` become total functions returning the caught-path
string.
-/

namespace KPC

/-- JS whitespace as used by `String.prototype.trim` restricted to the ASCII
range that can occur in the embedded strings (space, tab, LF, CR, VT, FF). -/
def jsWs (c : Char) : Bool :=
  c = ' ' || c = '\t' || c = '\n' || c = '\x0d' || c = '\x0b' || c = '\x0c'

/-- `String.prototype.toLowerCase`, restricted to ASCII (the keyword lists and
component names in the source are ASCII or CJK; CJK is case-invariant). -/
def lowerChar (c : Char) : Char :=
  if 'A' ≤ c ∧ c ≤ 'Z' then Char.ofNat (c.toNat + 32) else c

/-- `String.prototype.toUpperCase` on one char, restricted to ASCII. -/
def upperChar (c : Char) : Char :=
  if 'a' ≤ c ∧ c ≤ 'z' then Char.ofNat (c.toNat - 32) else c

def jsToLower (l : List Char) : List Char := l.map lowerChar

/-- Pattern is a prefix of the list. -/
def hasPfx : List Char → List Char → Bool
  | [], _ => true
  | _ :: _, [] => false
  | p :: ps, c :: cs => p = c && hasPfx ps cs

/-- JS `String.prototype.includes`: the pattern occurs as a contiguous
substring. -/
def containsSub (pat : List Char) : List Char → Bool
  | [] => pat.isEmpty
  | c :: rest => hasPfx pat (c :: rest) || containsSub pat rest

/-- Split at the first occurrence of `pat`: returns the part before the
occurrence and the part after it.  `none` when `pat` does not occur. -/
def splitFirst (pat : List Char) : List Char → Option (List Char × List Char)
  | [] => if pat.isEmpty then some ([], []) else none
  | c :: rest =>
    if hasPfx pat (c :: rest) then some ([], List.drop pat.length (c :: rest))
    else
      match splitFirst pat rest with
      | some (pre, post) => some (c :: pre, post)
      | none => none

/-- Split at the last occurrence of the single char `c`:
`l = a ++ [c] ++ b` with `c ∉ b`. -/
def lastSplit (c : Char) (l : List Char) : Option (List Char × List Char) :=
  match splitFirst [c] l.reverse with
  | some (bRev, aRev) => some (aRev.reverse, bRev.reverse)
  | none => none

def trimLeft (l : List Char) : List Char := l.dropWhile jsWs

def trimRight (l : List Char) : List Char := (l.reverse.dropWhile jsWs).reverse

/-- JS `String.prototype.trim`. -/
def jsTrimL (l : List Char) : List Char := trimLeft (trimRight l)

def jsTrimStr (s : String) : String := String.mk (jsTrimL s.data)

/-- JS `Array.prototype.join(sep)`. -/
def joinSep (sep : String) : List String → String
  | [] => ""
  | x :: xs => xs.foldl (fun a b => a ++ sep ++ b) x

/-- Concatenation of the chunks a streaming sink received, in order. -/
def joinChunks (l : List String) : String := l.foldl (fun a b => a ++ b) ""

/-! ### JSON values and `JSON.parse`

`JSON.parse` is embedded as an executable recursive-descent parser over
`List Char` with explicit fuel (each recursive call consumes at least one
character, so `length + 1` fuel is always sufficient).  Numbers keep their
lexeme: no claim depends on numeric semantics.  Duplicate object keys keep
their order of appearance; property lookup takes the last binding, as
`JSON.parse` does. -/

inductive Json where
  | null
  | bool (b : Bool)
  | num (lexeme : String)
  | str (s : String)
  | arr (elems : List Json)
  | obj (fields : List (String × Json))

/-- JS property read `o[k]` for an object produced by `JSON.parse`
(last duplicate key wins); `none` models `undefined`. -/
def jsGetField (fields : List (String × Json)) (k : String) : Option Json :=
  (fields.reverse.find? (fun p => p.1 == k)).map (fun p => p.2)

/-- JS property read on an arbitrary JSON value: only objects have data
properties (reads on strings/numbers/booleans/arrays named here yield
`undefined`; the caller models reads on `null`/`undefined` as throwing). -/
def jsProp (v : Json) (k : String) : Option Json :=
  match v with
  | .obj fields => jsGetField fields k
  | _ => none

def jsonWs (c : Char) : Bool := c = ' ' || c = '\t' || c = '\n' || c = '\x0d'

def skipWs (l : List Char) : List Char := l.dropWhile jsonWs

def isDigit (c : Char) : Bool := '0' ≤ c && c ≤ '9'

/-- Value of one hex digit, as accepted by a JSON `\u` escape. -/
def hexVal (c : Char) : Option Nat :=
  let n := c.toNat
  if 48 ≤ n ∧ n ≤ 57 then some (n - 48)
  else if 97 ≤ n ∧ n ≤ 102 then some (n - 87)
  else if 65 ≤ n ∧ n ≤ 70 then some (n - 55)
  else none

/-- The single-character JSON string escapes (`\u` is handled separately). -/
def escChar (e : Char) : Option Char :=
  if e = '"' ∨ e = '\\' ∨ e = '/' then some e
  else if e = 'n' then some (Char.ofNat 10)
  else if e = 't' then some (Char.ofNat 9)
  else if e = 'r' then some (Char.ofNat 13)
  else if e = 'b' then some (Char.ofNat 8)
  else if e = 'f' then some (Char.ofNat 12)
  else none

/-- Lex the integer part of a JSON number (`0` or a nonzero-led digit run). -/
def lexIntPart : List Char → Option (List Char × List Char)
  | [] => none
  | '0' :: rest =>
    match rest with
    | d :: _ => if isDigit d then none else some (['0'], rest)
    | [] => some (['0'], [])
  | c :: rest =>
    if isDigit c then some (c :: rest.takeWhile isDigit, rest.dropWhile isDigit)
    else none

/-- Lex a full JSON number; returns the lexeme and the rest. -/
def lexNum (l : List Char) : Option (List Char × List Char) :=
  let (sign, l1) :=
    match l with
    | '-' :: rest => (['-'], rest)
    | _ => (([] : List Char), l)
  match lexIntPart l1 with
  | none => none
  | some (ip, l2) =>
    let (fp, l3) :=
      match l2 with
      | '.' :: d :: rest =>
        if isDigit d then ('.' :: d :: rest.takeWhile isDigit, rest.dropWhile isDigit)
        else (([] : List Char), l2)
      | _ => (([] : List Char), l2)
    if fp.isEmpty && (match l2 with | '.' :: _ => true | _ => false) then none
    else
      match l3 with
      | e :: rest =>
        if e = 'e' ∨ e = 'E' then
          let (es, rest2) :=
            match rest with
            | '+' :: r => (['+'], r)
            | '-' :: r => (['-'], r)
            | _ => (([] : List Char), rest)
          match rest2 with
          | d :: _ =>
            if isDigit d then
              some (sign ++ ip ++ fp ++ e :: es ++ rest2.takeWhile isDigit,
                    rest2.dropWhile isDigit)
            else none
          | [] => none
        else some (sign ++ ip ++ fp, l3)
      | [] => some (sign ++ ip ++ fp, l3)

mutual

def parseStrBody : Nat → List Char → Option (List Char × List Char)
  | 0, _ => none
  | fuel + 1, l =>
    match l with
    | [] => none
    | '"' :: rest => some ([], rest)
    | '\\' :: 'u' :: rest =>
      (match rest with
       | h1 :: h2 :: h3 :: h4 :: rest2 =>
         (match hexVal h1, hexVal h2, hexVal h3, hexVal h4 with
          | some a, some b, some c, some d =>
            (parseStrBody fuel rest2).map
              (fun p => (Char.ofNat (((a * 16 + b) * 16 + c) * 16 + d) :: p.1, p.2))
          | _, _, _, _ => none)
       | _ => none)
    | '\\' :: e :: rest =>
      (match escChar e with
       | some decoded => (parseStrBody fuel rest).map (fun p => (decoded :: p.1, p.2))
       | none => none)
    | c :: rest =>
      if c.toNat < 32 then none
      else (parseStrBody fuel rest).map (fun p => (c :: p.1, p.2))

def parseValue : Nat → List Char → Option (Json × List Char)
  | 0, _ => none
  | fuel + 1, l =>
    match skipWs l with
    | 'n' :: 'u' :: 'l' :: rest1 =>
      (match rest1 with
       | 'l' :: rest => some (.null, rest)
       | _ => none)
    | 't' :: 'r' :: 'u' :: rest1 =>
      (match rest1 with
       | 'e' :: rest => some (.bool true, rest)
       | _ => none)
    | 'f' :: 'a' :: 'l' :: rest1 =>
      (match rest1 with
       | 's' :: 'e' :: rest => some (.bool false, rest)
       | _ => none)
    | '"' :: rest =>
      (parseStrBody fuel rest).map (fun p => (.str (String.mk p.1), p.2))
    | '\x7b' :: rest =>
      (match skipWs rest with
       | '\x7d' :: rest2 => some (.obj [], rest2)
       | other => parseMembers fuel other [])
    | '[' :: rest =>
      (match skipWs rest with
       | ']' :: rest2 => some (.arr [], rest2)
       | other => parseElems fuel other [])
    | other => (lexNum other).map (fun p => (.num (String.mk p.1), p.2))

def parseMembers : Nat → List Char → List (String × Json) → Option (Json × List Char)
  | 0, _, _ => none
  | fuel + 1, l, acc =>
    match skipWs l with
    | '"' :: rest =>
      (match parseStrBody fuel rest with
       | none => none
       | some (key, rest2) =>
         match skipWs rest2 with
         | ':' :: rest3 =>
           (match parseValue fuel rest3 with
            | none => none
            | some (v, rest4) =>
              match skipWs rest4 with
              | ',' :: rest5 => parseMembers fuel rest5 (acc ++ [(String.mk key, v)])
              | '\x7d' :: rest5 => some (.obj (acc ++ [(String.mk key, v)]), rest5)
              | _ => none)
         | _ => none)
    | _ => none

def parseElems : Nat → List Char → List Json → Option (Json × List Char)
  | 0, _, _ => none
  | fuel + 1, l, acc =>
    match parseValue fuel l with
    | none => none
    | some (v, rest) =>
      match skipWs rest with
      | ',' :: rest2 => parseElems fuel rest2 (acc ++ [v])
      | ']' :: rest2 => some (.arr (acc ++ [v]), rest2)
      | _ => none

end

/-- `JSON.parse`: a complete parse of the whole input, `none` on any syntax
error (the source wraps the call in `try`/`catch`). -/
def jsonParse (l : List Char) : Option Json :=
  match parseValue (l.length + 1) l with
  | some (j, rest) => if (skipWs rest).isEmpty then some j else none
  | none => none

/-! ### Data model (`ai-assistant.ts`) -/

/-- `interface FunctionCall { name: string; arguments: Record<string, any> }`.
`arguments` is `Option Json` because a parsed backend object may lack the
field (JS `undefined`). -/
structure FunctionCall where
  name : String
  arguments : Option Json

/-- `interface ToolDescription`. -/
structure ToolDescription where
  name : String
  description : String
  parameters : List (String × String)
  examples : List String

/-- `initializeToolDescriptions()`: the fixed capability catalog. -/
def kpcToolDescriptions : List ToolDescription :=
  [ { name := "get_kpc_component",
      description := "获取KPC组件的详细信息、属性列表、API文档和使用说明",
      parameters := [("component", "string - 组件名称，如Button、Table等")],
      examples := ["用户询问Button组件的属性", "想了解Table组件的API", "需要查看具体组件的文档"] },
    { name := "search_kpc_components",
      description := "根据关键词搜索相关的KPC组件，支持模糊搜索和分类搜索",
      parameters := [("query", "string - 搜索关键词"), ("category", "string - 可选，组件分类"),
                     ("fuzzy", "boolean - 可选，是否模糊搜索")],
      examples := ["用户想找表单相关的组件", "搜索按钮类型的组件", "查找数据展示相关组件"] },
    { name := "get_kpc_usage_examples",
      description := "获取KPC组件的使用示例和代码演示，包含不同场景的用法",
      parameters := [("component", "string - 组件名称"), ("scenario", "string - 可选，使用场景如基础用法、表单验证等"),
                     ("framework", "string - 可选，框架类型")],
      examples := ["用户想看Button组件的使用示例", "需要Table组件的分页示例", "想了解Form组件的验证用法"] },
    { name := "validate_kpc_usage",
      description := "验证KPC组件的配置是否正确，检查属性值和用法",
      parameters := [("component", "string - 组件名称"), ("props", "object - 组件属性配置"),
                     ("context", "string - 可选，使用上下文")],
      examples := ["用户提供了组件配置想验证是否正确", "检查属性设置是否有问题", "确认组件用法是否规范"] },
    { name := "get_kpc_stats",
      description := "获取KPC组件库的统计信息，如组件数量、分类等",
      parameters := [],
      examples := ["用户询问组件库有多少个组件", "想了解组件分类统计", "查看组件库的整体信息"] } ]

/-- The catalog's capability names (`this.toolDescriptions.map(t => t.name)`). -/
def kpcToolNames : List String := kpcToolDescriptions.map (fun t => t.name)

/-! ### Call Parser (`parseToolCallResponse`, ai-assistant.ts lines 230-283)

Each regex step is modelled by the equivalent first-occurrence scanner:
* `replace(/<think>[\s\S]*?<\/think>/g, '')` removes, repeatedly, the span
  from the first `<think>` to the first `</think>` after it;
* `match(/```json\n?([\s\S]*?)```/)` (resp. the untagged variant) takes the
  first fence opener that has a closing ``` after it, skips one optional
  newline, and captures lazily up to the first closing ```;
* `match(/\{[\s\S]*\}/)` greedily spans from the first `{` to the last `}`. -/

def thinkOpen : List Char := ("<think>").data
def thinkClose : List Char := ("</think>").data
def ticks : List Char := Char.ofNat 96 :: Char.ofNat 96 :: [Char.ofNat 96]
def fenceJsonOpen : List Char := ticks ++ ("json").data

/-- Fueled worker for the global `<think>…</think>` removal. -/
def stripThinkF : Nat → List Char → List Char
  | 0, l => l
  | fuel + 1, l =>
    match splitFirst thinkOpen l with
    | none => l
    | some (pre, afterOpen) =>
      match splitFirst thinkClose afterOpen with
      | none => l
      | some (_, afterClose) => pre ++ stripThinkF fuel afterClose

def stripThink (l : List Char) : List Char := stripThinkF l.length l

/-- One fenced-block extraction attempt: first opener occurrence, optional
newline, lazy capture up to the first closing ```. -/
def fenceMatch (opener : List Char) (l : List Char) : Option (List Char) :=
  match splitFirst opener l with
  | none => none
  | some (_, afterOpen) =>
    let inner :=
      match afterOpen with
      | '\n' :: r => r
      | r => r
    match splitFirst ticks inner with
    | none => none
    | some (interior, _) => some interior

/-- The two markdown-fence removal branches; on a failed match the text is
kept unchanged, as in the source (`if (jsonMatch) { … }`). -/
def extractFence (l : List Char) : List Char :=
  if containsSub fenceJsonOpen l then
    match fenceMatch fenceJsonOpen l with
    | some i => i
    | none => l
  else if containsSub ticks l then
    match fenceMatch ticks l with
    | some i => i
    | none => l
  else l

/-- `match(/\{[\s\S]*\}/)`: from the first `{` to the last `}` when the last
`}` comes after the first `{`; otherwise the text is kept unchanged. -/
def extractBraces (l : List Char) : List Char :=
  match splitFirst ['{'] l with
  | none => l
  | some (_, afterBrace) =>
    match lastSplit '}' afterBrace with
    | none => l
    | some (mid, _) => '{' :: mid ++ ['}']

/-- The cleaned JSON candidate `parseToolCallResponse` feeds to `JSON.parse`. -/
def candidateCore (l : List Char) : List Char :=
  jsTrimL (extractBraces (extractFence (stripThink (jsTrimL l))))

/-- The claim-level notion "an object whose `name` field is a catalog name". -/
def isCatalogCall (catalog : List String) : Json → Bool
  | .obj fields =>
    match jsGetField fields ("name") with
    | some (.str n) => catalog.contains n
    | _ => false
  | _ => false

/-- Validation of the parsed value (`parsed && typeof parsed === 'object' &&
parsed.name` plus the catalog lookup).  A truthy `name` that is not a string
never equals a catalog name under `===`, so only string names survive; the
emptiness test is JS truthiness of the string. -/
def validateParsed (catalog : List String) : Json → Option FunctionCall
  | .obj fields =>
    match jsGetField fields ("name") with
    | some (.str n) =>
      if n ≠ "" ∧ catalog.contains n then some ⟨n, jsGetField fields ("arguments")⟩
      else none
    | _ => none
  | _ => none

/-- The tail of `parseToolCallResponse` acting on the cleaned candidate. -/
def decideCand (catalog : List String) (cand : List Char) : Option FunctionCall :=
  if jsToLower cand = ("null").data ∨ cand = [] then none
  else
    match jsonParse cand with
    | none => none
    | some j => validateParsed catalog j

/-- `parseToolCallResponse` over `List Char`. -/
def parseCore (catalog : List String) (l : List Char) : Option FunctionCall :=
  decideCand catalog (candidateCore l)

/-- `parseToolCallResponse(response)`, parameterized by the catalog the
instance holds in `this.toolDescriptions`.  Total: every `try`/`catch` path
of the source is the `none` result. -/
def parseToolCallResponse (catalog : List String) (response : String) : Option FunctionCall :=
  parseCore catalog response.data

/-! ### Deterministic fallback (`fallbackToolDetection`, lines 288-315) -/

def commonComponents : List String :=
  ["button", "form", "table", "input", "select", "dialog", "tooltip", "datepicker",
   "upload", "pagination", "switch", "radio", "tab", "checkbox", "dropdown"]

def statsKeywords : List String := ["多少个", "总共", "统计", "数量"]

def searchKeywords : List String := ["搜索", "查找", "找", "相关组件"]

/-- The alternatives of `replace(/搜索|查找|找|相关组件|的组件|组件/g, '')`,
in the regex's leftmost-alternative order. -/
def searchStripAlts : List String := ["搜索", "查找", "找", "相关组件", "的组件", "组件"]

/-- Fueled worker for the global alternation replace: at each position the
first alternative that matches is removed, scanning left to right.  All
alternatives are nonempty, so `length` fuel suffices. -/
def replaceAltsF : Nat → List Char → List Char
  | 0, l => l
  | _ + 1, [] => []
  | fuel + 1, c :: rest =>
    match searchStripAlts.find? (fun p => hasPfx p.data (c :: rest)) with
    | some p => replaceAltsF fuel (List.drop p.data.length (c :: rest))
    | none => c :: replaceAltsF fuel rest

/-- The search query built in the search branch:
`message.replace(/搜索|查找|找|相关组件|的组件|组件/g, '').trim()`. -/
def searchQueryOf (message : String) : String :=
  String.mk (jsTrimL (replaceAltsF message.data.length message.data))

/-- `capitalizeFirst(str)`. -/
def capitalizeFirst (s : String) : String :=
  match s.data with
  | [] => ""
  | c :: rest => String.mk (upperChar c :: rest)

/-- The fallback's rule conditions, exposed for the theorems. -/
def hasStatsKeyword (message : String) : Bool :=
  statsKeywords.any (fun k => containsSub k.data (jsToLower message.data))

def hasSearchKeyword (message : String) : Bool :=
  searchKeywords.any (fun k => containsSub k.data (jsToLower message.data))

/-- `fallbackToolDetection(message)`: ordered keyword rules over the
lower-cased utterance. -/
def fallbackToolDetection (message : String) : Option FunctionCall :=
  if hasStatsKeyword message then
    some ⟨"get_kpc_stats", some (Json.obj [])⟩
  else if hasSearchKeyword message then
    some ⟨"search_kpc_components", some (Json.obj [(("query"), Json.str (searchQueryOf message))])⟩
  else
    match commonComponents.find? (fun n => containsSub n.data (jsToLower message.data)) with
    | some comp =>
      some ⟨"get_kpc_component", some (Json.obj [(("component"), Json.str (capitalizeFirst comp))])⟩
    | none => none

/-! ### Deterministic environment for `KPCAIAssistant`

The external collaborators are abstracted as deterministic functions:
* `available` — the result of every `checkOllamaService()` probe
  (`GET /api/tags` ok);
* `gen` — buffered `callOllama(prompt)`; `none` models the method throwing
  (fetch failure / non-ok status);
* `genStream` — `streamOllama(prompt)`: `none` models the fetch throwing,
  `some lines` the complete NDJSON lines the body delivers (the
  `TextDecoder`/partial-read reassembly is below the granularity of any
  claim);
* `mcp` — the string returned by the corresponding `KPCMCPClient` method,
  keyed by tool name and the argument list the assistant builds (the
  connection state machine is modelled separately below);
* `errMsg` — the JS stringification of a caught error, abstracted;
* `modelName`, `host` — the constructor's `model` and `ollamaHost`. -/
structure Env where
  available : Bool
  gen : String → Option String
  genStream : String → Option (List String)
  mcp : String → List (String × Option Json) → String
  errMsg : String
  modelName : String
  host : String

def toolInfoLine (t : ToolDescription) : String :=
  t.name ++ (": ") ++ t.description ++ ("\n参数: ")
    ++ joinSep (", ") (t.parameters.map (fun p => p.1 ++ (" (") ++ p.2 ++ (")")))

def toolsInfo : String := joinSep ("\n\n") (kpcToolDescriptions.map toolInfoLine)

/-- The classification `systemPrompt` of `detectToolNeeded` (lines 192-215). -/
def detectPrompt (message : String) : String :=
  ("你是一个工具调用判断器。分析用户问题，判断是否需要调用工具。\n\n可用工具：\n")
  ++ toolsInfo
  ++ ("\n\n用户问题：") ++ message
  ++ ("\n\n工具选择原则：\n1. 询问组件属性、API、参数 → 使用 get_kpc_component\n2. 询问如何使用、示例、用法 → 优先使用 get_kpc_component（包含使用示例）\n3. 搜索组件 → 使用 search_kpc_components\n4. 验证配置 → 使用 validate_kpc_usage\n5. 统计信息 → 使用 get_kpc_stats\n\n严格按照以下格式返回，不要添加任何解释：\n- 需要工具时返回：\x7b\"name\": \"工具名\", \"arguments\": \x7b参数对象\x7d\x7d\n- 不需要工具时返回：null\n\n例如：\n- \"Button组件有哪些属性？\"→ \x7b\"name\": \"get_kpc_component\", \"arguments\": \x7b\"component\": \"Button\"\x7d\x7d\n- \"Table组件如何使用？\"→ \x7b\"name\": \"get_kpc_component\", \"arguments\": \x7b\"component\": \"Table\"\x7d\x7d\n- \"你好\"→ null\n\n只返回JSON，不要其他内容。")

/-- `generateFinalAnswer`'s prompt (lines 401-412). -/
def finalAnswerPrompt (userMessage toolResult : String) : String :=
  ("你是KPC组件库专家，基于以下信息回答用户问题：\n\n用户问题：") ++ userMessage
  ++ ("\n\n工具查询结果：\n") ++ toolResult
  ++ ("\n\n请根据查询结果，用友好、专业的语调回答用户问题：\n1. 直接回答用户的问题\n2. 提供实用的建议和代码示例\n3. 如果合适，补充相关的最佳实践\n4. 保持回答简洁明了")

/-- `streamFinalAnswer`'s prompt (lines 500-508): same header, shorter tail. -/
def streamFinalPrompt (userMessage toolResult : String) : String :=
  ("你是KPC组件库专家，基于以下信息回答用户问题：\n\n用户问题：") ++ userMessage
  ++ ("\n\n工具查询结果：\n") ++ toolResult
  ++ ("\n\n请根据查询结果，用友好、专业的语调回答用户问题。")

/-- `directAnswer`'s prompt (lines 377-381). -/
def directPrompt (userMessage : String) : String :=
  ("你是一个专业的前端开发助手，特别擅长Kpc组件开发,你的回答要结合Kpc组件库的文档和示例代码。\n\n用户问题：")
  ++ userMessage
  ++ ("\n\n请用友好、专业的语调回答用户的问题。如果问题与KPC组件库相关但你需要更具体的信息，请引导用户提供更多细节。")

/-- `streamDirectAnswer`'s prompt (lines 518-522). -/
def streamDirectPrompt (userMessage : String) : String :=
  ("你是一个专业的前端开发助手，特别擅长Vue组件开发。\n\n用户问题：") ++ userMessage
  ++ ("\n\n请用友好、专业的语调回答用户的问题。")

/-- `directAnswer`'s canned message when Ollama is unavailable (lines 386-393). -/
def unavailableMsg (env : Env) (userMessage : String) : String :=
  ("您好！我是KPC组件库助手。您的问题\"") ++ userMessage
  ++ ("\"需要AI回答，但Ollama服务当前不可用。\n\n请确保：\n1. Ollama服务正在运行: ollama serve\n2. 模型已下载: ollama pull ")
  ++ env.modelName
  ++ ("\n3. 服务地址正确: ") ++ env.host
  ++ ("\n\n或者您可以询问具体的KPC组件问题，我可以为您查询准确的组件信息。")

/-- `streamDirectAnswer`'s canned message when Ollama is unavailable
(lines 526-528). -/
def streamUnavailableMsg : String :=
  ("您好！我是KPC组件库助手。您的问题需要AI回答，但Ollama服务当前不可用。\n\n请询问具体的KPC组件问题，我可以为您查询准确的组件信息。")

/-- The `catch` branch of `chat`/`chatStream`: a single user-facing message. -/
def chatErrMsg (env : Env) : String := ("抱歉，处理您的问题时出现错误：") ++ env.errMsg

/-- `detectToolNeeded(message)` (lines 181-225): probe, prompt the backend,
parse; the deterministic fallback runs only when the probe reports
unavailable or `callOllama` throws. -/
def detectToolNeeded (env : Env) (message : String) : Option FunctionCall :=
  if env.available = false then fallbackToolDetection message
  else
    match env.gen (detectPrompt message) with
    | some response => parseToolCallResponse kpcToolNames response
    | none => fallbackToolDetection message

/-- `args.fuzzy` / `framework` style parameter defaulting: a JS default
parameter replaces `undefined` only. -/
def orDefault (v : Option Json) (d : Json) : Json :=
  match v with
  | some x => x
  | none => d

/-- The emptiness check at the end of `executeTool` (line 360):
`!result || result.trim() === '' || result === 'undefined'`. -/
def wrapToolResult (name result : String) : String :=
  if jsTrimStr result = ("") ∨ result = ("undefined") then
    ("工具 ") ++ name ++ (" 未返回有效结果。请检查参数或稍后重试。")
  else result

/-- `executeTool(toolCall)` (lines 328-370).  Each case forwards the argument
values the source extracts to the matching `KPCMCPClient` method, represented
by `env.mcp` keyed by tool name.  Reading a property of `undefined` or `null`
arguments throws a `TypeError`, caught by the method's `catch`. -/
def executeTool (env : Env) (call : FunctionCall) : String :=
  match call.arguments with
  | none => ("工具执行失败：") ++ env.errMsg
  | some args =>
    match args with
    | .null => ("工具执行失败：") ++ env.errMsg
    | _ =>
      if call.name = ("get_kpc_component") then
        wrapToolResult call.name
          (env.mcp ("get_kpc_component") [(("component"), jsProp args ("component"))])
      else if call.name = ("search_kpc_components") then
        wrapToolResult call.name
          (env.mcp ("search_kpc_components")
            [(("query"), jsProp args ("query")), (("category"), jsProp args ("category")),
             (("fuzzy"), some (orDefault (jsProp args ("fuzzy")) (Json.bool false)))])
      else if call.name = ("get_kpc_usage_examples") then
        wrapToolResult call.name
          (env.mcp ("get_kpc_usage_examples")
            [(("component"), jsProp args ("component")), (("scenario"), jsProp args ("scenario")),
             (("framework"), some (orDefault (jsProp args ("framework")) (Json.str ("vue3"))))])
      else if call.name = ("validate_kpc_usage") then
        wrapToolResult call.name
          (env.mcp ("validate_kpc_usage")
            [(("component"), jsProp args ("component")), (("props"), jsProp args ("props")),
             (("context"), jsProp args ("context"))])
      else if call.name = ("get_kpc_stats") then
        wrapToolResult call.name (env.mcp ("get_kpc_stats") [])
      else ("未知工具：") ++ call.name

/-- `directAnswer(userMessage)` (lines 375-395). -/
def directAnswer (env : Env) (userMessage : String) : String :=
  if env.available then
    match env.gen (directPrompt userMessage) with
    | some answer => answer
    | none => chatErrMsg env
  else unavailableMsg env userMessage

/-- `chat(userMessage)` (lines 144-176), the buffered protocol.  The outer
`try`/`catch` makes a throwing `callOllama` produce `chatErrMsg`. -/
def chat (env : Env) (userMessage : String) : String :=
  match detectToolNeeded env userMessage with
  | some toolAction =>
    let toolResult := executeTool env toolAction
    if env.available then
      match env.gen (finalAnswerPrompt userMessage toolResult) with
      | some answer => answer
      | none => chatErrMsg env
    else toolResult
  | none => directAnswer env userMessage

/-- `streamOllama(prompt, onChunk)` (lines 535-586): decode each NDJSON line,
forward `data.response` when truthy, ignore parse errors; a fetch failure
emits the single catch chunk. -/
def streamOllama (env : Env) (prompt : String) : List String :=
  match env.genStream prompt with
  | none => [("流式响应失败：") ++ env.errMsg]
  | some lines =>
    lines.filterMap (fun line =>
      if jsTrimStr line = ("") then none
      else
        match jsonParse line.data with
        | some j =>
          match jsProp j ("response") with
          | some (.str s) => if s = ("") then none else some s
          | _ => none
        | none => none)

/-- `streamDirectAnswer(userMessage, onChunk)` (lines 516-530). -/
def streamDirectAnswer (env : Env) (userMessage : String) : List String :=
  if env.available then streamOllama env (streamDirectPrompt userMessage)
  else [streamUnavailableMsg]

/-- `chatStream(userMessage, onChunk)` (lines 470-495): the list of chunks
passed to the sink, in order. -/
def chatStream (env : Env) (userMessage : String) : List String :=
  match detectToolNeeded env userMessage with
  | some toolAction =>
    let notice := ("🔧 正在查询") ++ toolAction.name ++ ("...\n\n")
    let toolResult := executeTool env toolAction
    if env.available then notice :: streamOllama env (streamFinalPrompt userMessage toolResult)
    else [notice, toolResult]
  | none => streamDirectAnswer env userMessage

/-! ### MCP client connection state (`mcp-client.ts`)

`KPCMCPClient`'s `connected` flag and the transport-level effects of
`connect`/`disconnect`/`callTool` are modelled as a state machine emitting a
trace of transport events.  `connectOk` is the outcome of
`this.client.connect(transport)`, `closeOk` of `this.client.close()`;
the Boolean in the results marks a propagated exception (the model functions
themselves are total, matching the claim that the wrappers never throw where
the source swallows errors). -/

structure ClientSt where
  connected : Bool

inductive TransportEvent where
  | transportConnect
  | transportClose
  | transportCall (name : String)
deriving DecidableEq

/-- `connect()` (lines 41-92): no-op when already connected, otherwise one
transport connect attempt; on failure the error propagates and `connected`
stays false.  (Command-line parsing is configuration handling with the fixed
nonempty default command and is not modelled.) -/
def connectStep (connectOk : Bool) (s : ClientSt) : ClientSt × List TransportEvent × Bool :=
  if s.connected then (s, [], false)
  else if connectOk then (⟨true⟩, [.transportConnect], false)
  else (s, [.transportConnect], true)

/-- `disconnect()` (lines 97-110): no-op when not connected; otherwise close
the channel — the `catch` swallows a close failure, but then
`this.connected = false` is never reached, so the flag stays true. -/
def disconnectStep (closeOk : Bool) (s : ClientSt) : ClientSt × List TransportEvent :=
  if s.connected = false then (s, [])
  else if closeOk then (⟨false⟩, [.transportClose])
  else (s, [.transportClose])

/-- `ensureConnected()` followed by one `callTool` request, as performed by
every capability method (`getComponent`, `searchComponents`, …). -/
def callStep (connectOk : Bool) (toolName : String) (s : ClientSt) :
    ClientSt × List TransportEvent × Bool :=
  match connectStep connectOk s with
  | (s1, evs, true) => (s1, evs, true)
  | (s1, evs, false) => (s1, evs ++ [.transportCall toolName], false)

/-- A sequence of capability invocations with no intervening `disconnect`. -/
def runCalls (connectOk : Bool) (names : List String) (s : ClientSt) :
    ClientSt × List TransportEvent :=
  match names with
  | [] => (s, [])
  | n :: rest =>
    let step := callStep connectOk n s
    let next := runCalls connectOk rest step.1
    (next.1, step.2.1 ++ next.2)

def isConnectEvent : TransportEvent → Bool
  | .transportConnect => true
  | _ => false

def countConnects (evs : List TransportEvent) : Nat :=
  (evs.filter isConnectEvent).length

/-! ### MCP client response handling -/

/-- One segment of an MCP tool result (`MCPToolResult.content` element). -/
structure Segment where
  type : String
  text : String

/-- `result.content[0]?.text || sentinel`: the first segment's text when it
exists and is truthy, else the operation-specific sentinel. -/
def extractFirstText (content : List Segment) (sentinel : String) : String :=
  match content with
  | [] => sentinel
  | seg :: _ => if seg.text = ("") then sentinel else seg.text

/-- `getComponent`'s handling of a delivered response (line 133). -/
def getComponentText (content : List Segment) : String :=
  extractFirstText content ("未获取到结果")

/-- `searchComponents`'s handling of a delivered response (line 152). -/
def searchComponentsText (content : List Segment) : String :=
  extractFirstText content ("未找到匹配的组件")

/-! ### Helper lemmas -/

theorem hasPfx_append_self (p r : List Char) : hasPfx p (p ++ r) = true := by
  induction p with
  | nil => rfl
  | cons c cs ih => simp [hasPfx, ih]

theorem hasPfx_cons_ne (c a : Char) (cs z : List Char) (h : a ≠ c) :
    hasPfx (c :: cs) (a :: z) = false := by
  simp [hasPfx]
  intro hca
  exact absurd hca.symm h

theorem splitFirst_nil (c : Char) (cs : List Char) : splitFirst (c :: cs) [] = none := by
  simp [splitFirst, List.isEmpty]

theorem splitFirst_of_hasPfx (pat l : List Char) (hne : pat ≠ [])
    (h : hasPfx pat l = true) : splitFirst pat l = some ([], List.drop pat.length l) := by
  cases l with
  | nil =>
    cases pat with
    | nil => exact absurd rfl hne
    | cons p ps => simp [hasPfx] at h
  | cons c rest => simp [splitFirst, h]

theorem splitFirst_self_append (c : Char) (cs y : List Char) :
    splitFirst (c :: cs) ((c :: cs) ++ y) = some ([], y) := by
  rw [splitFirst_of_hasPfx (c :: cs) ((c :: cs) ++ y) (by simp) (hasPfx_append_self _ _)]
  simp

theorem splitFirst_append_excl (c : Char) (cs x y : List Char) (hx : ∀ a ∈ x, a ≠ c) :
    splitFirst (c :: cs) (x ++ y)
      = (splitFirst (c :: cs) y).map (fun pq => (x ++ pq.1, pq.2)) := by
  induction x with
  | nil =>
    simp only [List.nil_append]
    cases h : splitFirst (c :: cs) y <;> simp
  | cons a x' ih =>
    have ha : a ≠ c := hx a (by simp)
    have hrest : ∀ b ∈ x', b ≠ c := fun b hb => hx b (by simp [hb])
    have hpfx : hasPfx (c :: cs) (a :: (x' ++ y)) = false := hasPfx_cons_ne c a cs _ ha
    simp only [List.cons_append, List.append_eq, splitFirst, hpfx, Bool.false_eq_true, if_false]
    rw [ih hrest]
    cases h : splitFirst (c :: cs) y with
    | none => simp
    | some pq => simp

theorem splitFirst_mid (c : Char) (cs x y : List Char) (hx : ∀ a ∈ x, a ≠ c) :
    splitFirst (c :: cs) (x ++ (c :: cs) ++ y) = some (x, y) := by
  rw [List.append_assoc, splitFirst_append_excl c cs x _ hx, splitFirst_self_append]
  simp

theorem splitFirst_none_of_excl (c : Char) (cs l : List Char) (hl : ∀ a ∈ l, a ≠ c) :
    splitFirst (c :: cs) l = none := by
  have h2 := splitFirst_append_excl c cs l [] hl
  rw [List.append_nil, splitFirst_nil] at h2
  exact h2

theorem splitFirst_length (pat : List Char) (hne : pat ≠ []) :
    ∀ (l pre post : List Char), splitFirst pat l = some (pre, post) → post.length < l.length := by
  intro l
  induction l with
  | nil =>
    intro pre post h
    cases pat with
    | nil => exact absurd rfl hne
    | cons c cs => rw [splitFirst_nil] at h; cases h
  | cons a rest ih =>
    intro pre post h
    by_cases hp : hasPfx pat (a :: rest) = true
    · rw [splitFirst_of_hasPfx pat _ hne hp] at h
      cases h
      cases pat with
      | nil => exact absurd rfl hne
      | cons c cs => simp [List.length_drop]; omega
    · rw [Bool.not_eq_true] at hp
      simp only [splitFirst, hp, Bool.false_eq_true, if_false] at h
      cases hsp : splitFirst pat rest with
      | none => rw [hsp] at h; cases h
      | some pq =>
        rw [hsp] at h
        cases h
        have := ih pq.1 pq.2 (by rw [hsp])
        simp only [List.length_cons]
        omega

theorem containsSub_of_hasPfx (pat l : List Char) (h : hasPfx pat l = true) :
    containsSub pat l = true := by
  cases l with
  | nil =>
    cases pat with
    | nil => rfl
    | cons c cs => simp [hasPfx] at h
  | cons c rest => simp [containsSub, h]

theorem containsSub_mid (pat x y : List Char) : containsSub pat (x ++ pat ++ y) = true := by
  induction x with
  | nil =>
    simp only [List.nil_append]
    exact containsSub_of_hasPfx pat (pat ++ y) (hasPfx_append_self pat y)
  | cons a x' ih =>
    have ih2 : containsSub pat (x' ++ (pat ++ y)) = true := by
      rw [← List.append_assoc]
      exact ih
    simp [containsSub, ih2]

theorem containsSub_false_of_excl (c : Char) (cs l : List Char) (hl : ∀ a ∈ l, a ≠ c) :
    containsSub (c :: cs) l = false := by
  induction l with
  | nil => simp [containsSub, List.isEmpty]
  | cons a rest ih =>
    have ha : a ≠ c := hl a (by simp)
    have hrest : ∀ b ∈ rest, b ≠ c := fun b hb => hl b (by simp [hb])
    simp [containsSub, hasPfx_cons_ne c a _ _ ha, ih hrest]

theorem dropWhile_append_cons (P : Char → Bool) (x y : List Char) (c : Char)
    (hc : P c = false) : List.dropWhile P (x ++ c :: y) = List.dropWhile P x ++ c :: y := by
  induction x with
  | nil => simp [List.dropWhile, hc]
  | cons a x' ih =>
    cases ha : P a with
    | true => simp [List.dropWhile, ha, ih]
    | false => simp [List.dropWhile, ha]

theorem trimRight_anchor (x y : List Char) (c : Char) (hc : jsWs c = false) :
    trimRight (x ++ c :: y) = x ++ c :: trimRight y := by
  unfold trimRight
  rw [List.reverse_append, List.reverse_cons, List.append_assoc, List.singleton_append,
    dropWhile_append_cons jsWs y.reverse x.reverse c hc]
  simp

theorem trimLeft_cons (c : Char) (l : List Char) (hc : jsWs c = false) :
    trimLeft (c :: l) = c :: l := by
  simp [trimLeft, List.dropWhile, hc]

theorem stripThinkF_no_open (fuel : Nat) (l : List Char)
    (h : splitFirst thinkOpen l = none) : stripThinkF fuel l = l := by
  cases fuel with
  | zero => rfl
  | succ n => simp [stripThinkF, h]

theorem stripThinkF_no_close (fuel : Nat) (l pre post : List Char)
    (h1 : splitFirst thinkOpen l = some (pre, post))
    (h2 : splitFirst thinkClose post = none) : stripThinkF fuel l = l := by
  cases fuel with
  | zero => rfl
  | succ n => simp [stripThinkF, h1, h2]

theorem stripThinkF_congr :
    ∀ (n f1 f2 : Nat) (l : List Char), l.length ≤ n → l.length ≤ f1 → l.length ≤ f2 →
      stripThinkF f1 l = stripThinkF f2 l := by
  intro n
  induction n with
  | zero =>
    intro f1 f2 l hn _ _
    have hnil : l = [] := List.eq_nil_of_length_eq_zero (Nat.le_zero.mp hn)
    subst hnil
    rw [stripThinkF_no_open f1 [] rfl, stripThinkF_no_open f2 [] rfl]
  | succ m ih =>
    intro f1 f2 l hn h1 h2
    cases h1op : splitFirst thinkOpen l with
    | none => rw [stripThinkF_no_open f1 _ h1op, stripThinkF_no_open f2 _ h1op]
    | some pr =>
      obtain ⟨pre, afterOpen⟩ := pr
      have hlen1 : afterOpen.length < l.length :=
        splitFirst_length thinkOpen (by decide) l pre afterOpen h1op
      cases h2op : splitFirst thinkClose afterOpen with
      | none => rw [stripThinkF_no_close f1 l pre _ h1op h2op, stripThinkF_no_close f2 l pre _ h1op h2op]
      | some pr2 =>
        obtain ⟨mid, afterClose⟩ := pr2
        have hlen2 : afterClose.length < afterOpen.length :=
          splitFirst_length thinkClose (by decide) afterOpen mid afterClose h2op
        cases f1 with
        | zero => exact absurd h1 (by omega)
        | succ k =>
          cases f2 with
          | zero => exact absurd h2 (by omega)
          | succ k2 =>
            simp only [stripThinkF, h1op, h2op]
            congr 1
            exact ih k k2 afterClose (by omega) (by omega) (by omega)

theorem stripThink_step (l pre afterOpen mid afterClose : List Char)
    (h1 : splitFirst thinkOpen l = some (pre, afterOpen))
    (h2 : splitFirst thinkClose afterOpen = some (mid, afterClose)) :
    stripThink l = pre ++ stripThink afterClose := by
  have hlen1 : afterOpen.length < l.length :=
    splitFirst_length thinkOpen (by decide) l pre afterOpen h1
  have hlen2 : afterClose.length < afterOpen.length :=
    splitFirst_length thinkClose (by decide) afterOpen mid afterClose h2
  unfold stripThink
  cases hn : l.length with
  | zero => omega
  | succ n =>
    simp only [stripThinkF, h1, h2]
    congr 1
    exact stripThinkF_congr afterOpen.length n afterClose.length afterClose (by omega) (by omega)
      (by omega)

theorem stripThink_no_lt (l : List Char) (hl : ∀ c ∈ l, c ≠ '<') : stripThink l = l := by
  unfold stripThink
  apply stripThinkF_no_open
  rw [show thinkOpen = '<' :: ("think>").data from rfl]
  exact splitFirst_none_of_excl '<' _ l hl

theorem stripThink_drop_block (t r : List Char) (ht : ∀ c ∈ t, c ≠ '<') :
    stripThink (thinkOpen ++ (t ++ (thinkClose ++ r))) = stripThink r := by
  have h1 : splitFirst thinkOpen (thinkOpen ++ (t ++ (thinkClose ++ r)))
      = some ([], t ++ (thinkClose ++ r)) := by
    rw [show thinkOpen = '<' :: ("think>").data from rfl]
    exact splitFirst_self_append '<' _ _
  have h2 : splitFirst thinkClose (t ++ (thinkClose ++ r)) = some (t, r) := by
    have := splitFirst_mid '<' (("/think>").data) t r ht
    simpa [List.append_assoc, show thinkClose = '<' :: ("/think>").data from rfl] using this
  rw [stripThink_step _ [] _ t r h1 h2, List.nil_append]

theorem stripThink_append_clean (a r : List Char) (ha : ∀ c ∈ a, c ≠ '<') :
    stripThink (a ++ r) = a ++ stripThink r := by
  have hsp := splitFirst_append_excl '<' (("think>").data) a r ha
  rw [show ('<' :: ("think>").data) = thinkOpen from rfl] at hsp
  cases h : splitFirst thinkOpen r with
  | none =>
    have h1 : splitFirst thinkOpen (a ++ r) = none := by rw [hsp, h]; rfl
    unfold stripThink
    rw [stripThinkF_no_open _ _ h1, stripThinkF_no_open _ _ h]
  | some pr =>
    obtain ⟨pre, post⟩ := pr
    have h1 : splitFirst thinkOpen (a ++ r) = some (a ++ pre, post) := by rw [hsp, h]; rfl
    cases h2 : splitFirst thinkClose post with
    | none =>
      unfold stripThink
      rw [stripThinkF_no_close _ _ _ _ h1 h2, stripThinkF_no_close _ _ _ _ h h2]
    | some pr2 =>
      obtain ⟨mid, afterClose⟩ := pr2
      rw [stripThink_step (a ++ r) (a ++ pre) post mid afterClose h1 h2,
        stripThink_step r pre post mid afterClose h h2, List.append_assoc]

theorem validateParsed_none (catalog : List String) (j : Json)
    (h : isCatalogCall catalog j = false) : validateParsed catalog j = none := by
  cases j with
  | obj fields =>
    cases hn : jsGetField fields ("name") with
    | none => simp [validateParsed, hn]
    | some v =>
      cases v with
      | str n =>
        have h2 : catalog.contains n = false := by
          simpa [isCatalogCall, hn] using h
        simp [validateParsed, hn]
        intro _
        simpa using h2
      | null => simp [validateParsed, hn]
      | bool b => simp [validateParsed, hn]
      | num x => simp [validateParsed, hn]
      | arr xs => simp [validateParsed, hn]
      | obj f2 => simp [validateParsed, hn]
  | null => rfl
  | bool b => rfl
  | num x => rfl
  | str s => rfl
  | arr xs => rfl

theorem candidateCore_c4 (t p1 body p2 : List Char)
    (ht : ∀ c ∈ t, c ≠ '<')
    (hp1L : ∀ c ∈ p1, c ≠ '<') (hp1T : ∀ c ∈ p1, c ≠ Char.ofNat 96)
    (hbL : ∀ c ∈ body, c ≠ '<') (hbT : ∀ c ∈ body, c ≠ Char.ofNat 96) :
    candidateCore
        (thinkOpen ++ (t ++ (thinkClose ++ (p1 ++ (fenceJsonOpen ++ ('\n' :: (body ++ (ticks ++ p2))))))))
      = jsTrimL (extractBraces body) := by
  have e1 : thinkOpen ++ (t ++ (thinkClose ++ (p1 ++ (fenceJsonOpen ++ ('\n' :: (body ++ (ticks ++ p2)))))))
      = (thinkOpen ++ (t ++ (thinkClose ++ (p1 ++ (fenceJsonOpen ++ ('\n' :: (body ++ [Char.ofNat 96, Char.ofNat 96])))))))
        ++ (Char.ofNat 96) :: p2 := by
    simp [ticks, List.append_assoc]
  have htr : trimRight (thinkOpen ++ (t ++ (thinkClose ++ (p1 ++ (fenceJsonOpen ++ ('\n' :: (body ++ (ticks ++ p2))))))))
      = thinkOpen ++ (t ++ (thinkClose ++ (p1 ++ (fenceJsonOpen ++ ('\n' :: (body ++ (ticks ++ trimRight p2))))))) := by
    rw [e1, trimRight_anchor _ p2 (Char.ofNat 96) (by decide)]
    simp [ticks, List.append_assoc]
  have hjt : jsTrimL (thinkOpen ++ (t ++ (thinkClose ++ (p1 ++ (fenceJsonOpen ++ ('\n' :: (body ++ (ticks ++ p2))))))))
      = thinkOpen ++ (t ++ (thinkClose ++ (p1 ++ (fenceJsonOpen ++ ('\n' :: (body ++ (ticks ++ trimRight p2))))))) := by
    unfold jsTrimL
    rw [htr]
    have e2 : thinkOpen ++ (t ++ (thinkClose ++ (p1 ++ (fenceJsonOpen ++ ('\n' :: (body ++ (ticks ++ trimRight p2)))))))
        = '<' :: (("think>").data ++ (t ++ (thinkClose ++ (p1 ++ (fenceJsonOpen ++ ('\n' :: (body ++ (ticks ++ trimRight p2)))))))) := by
      rw [show thinkOpen = '<' :: ("think>").data from rfl, List.cons_append]
    rw [e2, trimLeft_cons '<' _ (by decide)]
  have hclean : ∀ c ∈ p1 ++ (fenceJsonOpen ++ ('\n' :: (body ++ ticks))), c ≠ '<' := by
    have hf : ∀ c ∈ fenceJsonOpen, c ≠ '<' := by decide
    have hk : ∀ c ∈ ticks, c ≠ '<' := by decide
    intro c hc
    simp only [List.mem_append, List.mem_cons] at hc
    rcases hc with h | h | h | h | h
    · exact hp1L c h
    · exact hf c h
    · subst h; decide
    · exact hbL c h
    · exact hk c h
  have hst : stripThink (thinkOpen ++ (t ++ (thinkClose ++ (p1 ++ (fenceJsonOpen ++ ('\n' :: (body ++ (ticks ++ trimRight p2))))))))
      = (p1 ++ (fenceJsonOpen ++ ('\n' :: (body ++ ticks)))) ++ stripThink (trimRight p2) := by
    rw [stripThink_drop_block t _ ht]
    have e3 : p1 ++ (fenceJsonOpen ++ ('\n' :: (body ++ (ticks ++ trimRight p2))))
        = (p1 ++ (fenceJsonOpen ++ ('\n' :: (body ++ ticks)))) ++ trimRight p2 := by
      simp [List.append_assoc]
    rw [e3, stripThink_append_clean _ _ hclean]
  have e4 : (p1 ++ (fenceJsonOpen ++ ('\n' :: (body ++ ticks)))) ++ stripThink (trimRight p2)
      = p1 ++ (fenceJsonOpen ++ ('\n' :: (body ++ (ticks ++ stripThink (trimRight p2))))) := by
    simp [List.append_assoc]
  have hcont : containsSub fenceJsonOpen
      (p1 ++ (fenceJsonOpen ++ ('\n' :: (body ++ (ticks ++ stripThink (trimRight p2)))))) = true := by
    have := containsSub_mid fenceJsonOpen p1 ('\n' :: (body ++ (ticks ++ stripThink (trimRight p2))))
    simpa [List.append_assoc] using this
  have hsp1 : splitFirst fenceJsonOpen
      (p1 ++ (fenceJsonOpen ++ ('\n' :: (body ++ (ticks ++ stripThink (trimRight p2))))))
      = some (p1, '\n' :: (body ++ (ticks ++ stripThink (trimRight p2)))) := by
    have := splitFirst_mid (Char.ofNat 96) ((Char.ofNat 96) :: (Char.ofNat 96) :: ("json").data) p1
      ('\n' :: (body ++ (ticks ++ stripThink (trimRight p2)))) hp1T
    simpa [List.append_assoc,
      show fenceJsonOpen = (Char.ofNat 96) :: ((Char.ofNat 96) :: (Char.ofNat 96) :: ("json").data) from rfl]
      using this
  have hsp2 : splitFirst ticks (body ++ (ticks ++ stripThink (trimRight p2)))
      = some (body, stripThink (trimRight p2)) := by
    have := splitFirst_mid (Char.ofNat 96) ((Char.ofNat 96) :: [Char.ofNat 96]) body
      (stripThink (trimRight p2)) hbT
    simpa [List.append_assoc,
      show ticks = (Char.ofNat 96) :: ((Char.ofNat 96) :: [Char.ofNat 96]) from rfl] using this
  have hfence : extractFence
      ((p1 ++ (fenceJsonOpen ++ ('\n' :: (body ++ ticks)))) ++ stripThink (trimRight p2)) = body := by
    rw [e4]
    unfold extractFence fenceMatch
    rw [hcont, hsp1]
    simp only [hsp2, if_true]
  unfold candidateCore
  rw [hjt, hst, hfence]

/-! ### Claim theorems -/

/-- C3: for every raw backend text whose extracted brace-delimited candidate is
not valid JSON, or parses to a value that is not an object with a `name` field
equal to a name in the catalog, `parseToolCallResponse` returns `none`.  It is
a total function, so it never throws. -/
theorem c3_parse_invalid_none (catalog : List String) (response : String)
    (h : ∀ j, jsonParse (candidateCore response.data) = some j →
      isCatalogCall catalog j = false) :
    parseToolCallResponse catalog response = none := by
  unfold parseToolCallResponse parseCore decideCand
  split
  · rfl
  · cases hj : jsonParse (candidateCore response.data) with
    | none => rfl
    | some j => exact validateParsed_none catalog j (h j hj)

/-- C3 witness: a candidate that is a JSON object whose `name` is not in the
catalog parses to no call. -/
theorem c3_parse_invalid_none_witness :
    parseToolCallResponse kpcToolNames ("\x7b\"name\": \"search\"\x7d") = none :=
  c3_parse_invalid_none kpcToolNames ("\x7b\"name\": \"search\"\x7d") (by
    intro j hj
    have he : jsonParse (candidateCore ("\x7b\"name\": \"search\"\x7d").data)
        = some (Json.obj [(("name"), Json.str ("search"))]) := rfl
    rw [he] at hj
    injection hj with h2
    subst h2
    rfl)

/-- C4: a backend output made of a `<think>…</think>` block, surrounding prose
and a ```json fence whose interior's brace-delimited candidate is a valid JSON
call on a catalog name parses to exactly that call, independent of the
surrounding prose; and the concrete raw text fencing
`{"name":"search","arguments":{"query":"表单"}}` parses to that call when
`search` is a known capability. -/
theorem c4_fenced_call_parsed :
    (∀ (catalog : List String) (t p1 body p2 : List Char) (fc : FunctionCall),
      (∀ c ∈ t, c ≠ '<') →
      (∀ c ∈ p1, c ≠ '<') → (∀ c ∈ p1, c ≠ Char.ofNat 96) →
      (∀ c ∈ body, c ≠ '<') → (∀ c ∈ body, c ≠ Char.ofNat 96) →
      decideCand catalog (jsTrimL (extractBraces body)) = some fc →
      parseCore catalog
        (thinkOpen ++ (t ++ (thinkClose ++ (p1 ++ (fenceJsonOpen ++ ('\n' :: (body ++ (ticks ++ p2))))))))
        = some fc)
    ∧ parseToolCallResponse (kpcToolNames ++ [("search")])
        ("```json\n\x7b\"name\": \"search\", \"arguments\": \x7b\"query\": \"表单\"\x7d\x7d\n```")
      = some ⟨("search"), some (Json.obj [(("query"), Json.str ("表单"))])⟩ := by
  constructor
  · intro catalog t p1 body p2 fc ht hp1L hp1T hbL hbT hcall
    unfold parseCore
    rw [candidateCore_c4 t p1 body p2 ht hp1L hp1T hbL hbT]
    exact hcall
  · rfl

/-- C4 witness: a think block, prose on both sides and a fenced
`get_kpc_stats` call parse to that call. -/
theorem c4_fenced_call_parsed_witness :
    parseCore kpcToolNames
      (thinkOpen ++ ((" 思考 ").data ++ (thinkClose ++ (("回答如下 ").data ++
        (fenceJsonOpen ++ ('\n' ::
          (("\x7b\"name\": \"get_kpc_stats\", \"arguments\": \x7b\x7d\x7d").data ++
          (ticks ++ (" 结束语").data))))))))
      = some ⟨("get_kpc_stats"), some (Json.obj [])⟩ :=
  c4_fenced_call_parsed.1 kpcToolNames (" 思考 ").data ("回答如下 ").data
    (("\x7b\"name\": \"get_kpc_stats\", \"arguments\": \x7b\x7d\x7d").data) ((" 结束语").data)
    ⟨("get_kpc_stats"), some (Json.obj [])⟩
    (by decide) (by decide) (by decide) (by decide) (by decide) rfl

/-- C5: the fallback classifier applies its rules in strict precedence order -
any utterance whose lower-casing contains a statistics keyword yields the
statistics call with empty arguments regardless of other keywords, and without
a statistics keyword a search keyword yields the search call. -/
theorem c5_fallback_stats_precedence :
    (∀ message : String, hasStatsKeyword message = true →
      fallbackToolDetection message = some ⟨("get_kpc_stats"), some (Json.obj [])⟩)
    ∧ (∀ message : String, hasStatsKeyword message = false → hasSearchKeyword message = true →
      fallbackToolDetection message
        = some ⟨("search_kpc_components"),
            some (Json.obj [(("query"), Json.str (searchQueryOf message))])⟩) := by
  constructor
  · intro m h
    simp [fallbackToolDetection, h]
  · intro m h1 h2
    simp [fallbackToolDetection, h1, h2]

/-- C5 witness: an utterance with statistics, search and component mentions
yields the statistics call; one with only a search keyword yields the search
call with the stripped query. -/
theorem c5_fallback_stats_precedence_witness :
    fallbackToolDetection ("统计一下button组件数量，搜索table")
      = some ⟨("get_kpc_stats"), some (Json.obj [])⟩
    ∧ fallbackToolDetection ("查找表单")
      = some ⟨("search_kpc_components"), some (Json.obj [(("query"), Json.str ("表单"))])⟩ :=
  ⟨c5_fallback_stats_precedence.1 ("统计一下button组件数量，搜索table") rfl,
   c5_fallback_stats_precedence.2 ("查找表单") rfl rfl⟩

/-- C10: with no statistics and no search keyword, the fallback returns the
component call for the first list-order name occurring as a substring of the
lower-cased utterance (first letter capitalized); in particular "database"
yields the `Tab` component call. -/
theorem c10_component_list_order :
    (∀ message : String, hasStatsKeyword message = false → hasSearchKeyword message = false →
      fallbackToolDetection message
        = (commonComponents.find? (fun n => containsSub n.data (jsToLower message.data))).map
            (fun comp => ⟨("get_kpc_component"),
              some (Json.obj [(("component"), Json.str (capitalizeFirst comp))])⟩))
    ∧ fallbackToolDetection ("database")
      = some ⟨("get_kpc_component"), some (Json.obj [(("component"), Json.str ("Tab"))])⟩ := by
  constructor
  · intro m h1 h2
    simp only [fallbackToolDetection, h1, h2, Bool.false_eq_true, if_false]
    cases hf : commonComponents.find? (fun n => containsSub n.data (jsToLower m.data)) with
    | none => simp
    | some comp => simp
  · rfl

/-- C10 witness: "pagination页" mentions only `pagination`, giving the
capitalized component call through the general list-order rule. -/
theorem c10_component_list_order_witness :
    fallbackToolDetection ("pagination页")
      = some ⟨("get_kpc_component"), some (Json.obj [(("component"), Json.str ("Pagination"))])⟩ :=
  c10_component_list_order.1 ("pagination页") rfl rfl

/-- C1 counterexample: with the backend available and answering text that
parses to no catalog call, `detectToolNeeded` returns `none` directly even
though the keyword fallback would return the statistics call — it does not
fall through to the fallback. -/
theorem c1_counterexample :
    detectToolNeeded
        ⟨true, fun _ => some ("好的，不需要工具"), fun _ => none, fun _ _ => (""), (""),
          ("qwen3:8b"), ("http://localhost:11434")⟩ ("多少个组件") = none
    ∧ fallbackToolDetection ("多少个组件") = some ⟨("get_kpc_stats"), some (Json.obj [])⟩
    ∧ (none : Option FunctionCall) ≠ some ⟨("get_kpc_stats"), some (Json.obj [])⟩ := by
  refine ⟨rfl, rfl, ?_⟩
  intro h
  cases h

/-- C1 amended: when the availability probe succeeds, `detectToolNeeded`
returns exactly the parser's result on the backend response — `none` when the
response yields no catalog call; the deterministic fallback runs only when the
probe reports unavailable or the backend call throws. -/
theorem c1_amended_detect_returns_parse (env : Env) (message : String) :
    (env.available = true → ∀ response, env.gen (detectPrompt message) = some response →
      detectToolNeeded env message = parseToolCallResponse kpcToolNames response)
    ∧ (env.available = true → env.gen (detectPrompt message) = none →
      detectToolNeeded env message = fallbackToolDetection message)
    ∧ (env.available = false → detectToolNeeded env message = fallbackToolDetection message) := by
  refine ⟨?_, ?_, ?_⟩
  · intro hav response hresp
    simp [detectToolNeeded, hav, hresp]
  · intro hav hresp
    simp [detectToolNeeded, hav, hresp]
  · intro hav
    simp [detectToolNeeded, hav]

/-- C1 witness: the backend is available and answers the no-call token, so
classification is `none` although the utterance holds a statistics keyword. -/
theorem c1_amended_detect_returns_parse_witness :
    detectToolNeeded
        ⟨true, fun _ => some ("null"), fun _ => none, fun _ _ => (""), (""),
          ("qwen3:8b"), ("http://localhost:11434")⟩ ("多少个") = none := by
  have h := (c1_amended_detect_returns_parse
      ⟨true, fun _ => some ("null"), fun _ => none, fun _ _ => (""), (""),
        ("qwen3:8b"), ("http://localhost:11434")⟩ ("多少个")).1 rfl ("null") rfl
  rw [h]
  rfl

/-- C2 counterexample: with the backend unavailable and the utterance "你好",
the buffered `chat` returns the long canned message embedding the utterance,
model and host, while `chatStream`'s chunks concatenate to the short canned
message — the two protocols are not character-identical. -/
theorem c2_counterexample :
    joinChunks (chatStream
        ⟨false, fun _ => none, fun _ => none, fun _ _ => (""), (""),
          ("qwen3:8b"), ("http://localhost:11434")⟩ ("你好"))
      ≠ chat
        ⟨false, fun _ => none, fun _ => none, fun _ _ => (""), (""),
          ("qwen3:8b"), ("http://localhost:11434")⟩ ("你好") := by
  decide

/-- C2 amended: the protocols differ in general; when a tool call is detected
and the backend is unavailable, the concatenation of `chatStream`'s chunks is
`chat`'s output prefixed with the stream-only status notice. -/
theorem c2_amended_stream_notice_prefix (env : Env) (message : String) (call : FunctionCall)
    (hav : env.available = false) (hdet : detectToolNeeded env message = some call) :
    joinChunks (chatStream env message)
      = (("🔧 正在查询") ++ call.name ++ ("...\n\n")) ++ chat env message := by
  have h1 : chatStream env message
      = [("🔧 正在查询") ++ call.name ++ ("...\n\n"), executeTool env call] := by
    simp [chatStream, hdet, hav]
  have h2 : chat env message = executeTool env call := by
    simp [chat, hdet, hav]
  rw [h1, h2]
  rfl

/-- C2 witness: on the component question with the backend unavailable, the
stream concatenation is the notice followed by the raw tool result. -/
theorem c2_amended_stream_notice_prefix_witness :
    joinChunks (chatStream
        ⟨false, fun _ => none, fun _ => none, fun _ _ => ("查询结果"), (""),
          ("qwen3:8b"), ("http://localhost:11434")⟩ ("Button组件有哪些属性？"))
      = ("🔧 正在查询get_kpc_component...\n\n查询结果") := by
  have h := c2_amended_stream_notice_prefix
      ⟨false, fun _ => none, fun _ => none, fun _ _ => ("查询结果"), (""),
        ("qwen3:8b"), ("http://localhost:11434")⟩ ("Button组件有哪些属性？")
      ⟨("get_kpc_component"), some (Json.obj [(("component"), Json.str ("Button"))])⟩ rfl rfl
  rw [h]
  rfl

/-- C6 counterexample: the transport result "undefined" is a non-empty string,
yet `chat` does not return it unmodified — the validity check replaces it with
the sentinel message. -/
theorem c6_counterexample :
    Env.mcp
        ⟨false, fun _ => none, fun _ => none, fun _ _ => ("undefined"), (""),
          ("qwen3:8b"), ("http://localhost:11434")⟩
        ("get_kpc_component") [(("component"), some (Json.str ("Button")))] = ("undefined")
    ∧ ("undefined" : String) ≠ ("")
    ∧ chat
        ⟨false, fun _ => none, fun _ => none, fun _ _ => ("undefined"), (""),
          ("qwen3:8b"), ("http://localhost:11434")⟩ ("Button组件有哪些属性？")
      = ("工具 get_kpc_component 未返回有效结果。请检查参数或稍后重试。")
    ∧ ("工具 get_kpc_component 未返回有效结果。请检查参数或稍后重试。" : String) ≠ ("undefined") := by
  refine ⟨rfl, by decide, rfl, by decide⟩

/-- C6 amended: with the backend unavailable at every probe, the fallback
classifies "Button组件有哪些属性？" as the Button component-detail call, and
when the transport's result is non-empty after trimming and not the literal
"undefined", `chat` returns that raw tool result text unmodified. -/
theorem c6_amended_raw_result (env : Env) (r : String)
    (hav : env.available = false)
    (hmcp : env.mcp ("get_kpc_component") [(("component"), some (Json.str ("Button")))] = r)
    (hr1 : jsTrimStr r ≠ ("")) (hr2 : r ≠ ("undefined")) :
    detectToolNeeded env ("Button组件有哪些属性？")
      = some ⟨("get_kpc_component"), some (Json.obj [(("component"), Json.str ("Button"))])⟩
    ∧ chat env ("Button组件有哪些属性？") = r := by
  have h0 : detectToolNeeded env ("Button组件有哪些属性？")
      = fallbackToolDetection ("Button组件有哪些属性？") := by
    simp [detectToolNeeded, hav]
  have hdet : detectToolNeeded env ("Button组件有哪些属性？")
      = some ⟨("get_kpc_component"), some (Json.obj [(("component"), Json.str ("Button"))])⟩ := by
    rw [h0]
    rfl
  have hexec : executeTool env
      ⟨("get_kpc_component"), some (Json.obj [(("component"), Json.str ("Button"))])⟩
      = wrapToolResult ("get_kpc_component") r := by
    rw [show executeTool env
          ⟨("get_kpc_component"), some (Json.obj [(("component"), Json.str ("Button"))])⟩
        = wrapToolResult ("get_kpc_component")
            (env.mcp ("get_kpc_component") [(("component"), some (Json.str ("Button")))])
      from rfl, hmcp]
  have hcond : ¬(jsTrimStr r = ("") ∨ r = ("undefined")) := by
    intro hor
    rcases hor with h1 | h2
    · exact hr1 h1
    · exact hr2 h2
  have hwrap : wrapToolResult ("get_kpc_component") r = r := by
    unfold wrapToolResult
    rw [if_neg hcond]
  refine ⟨hdet, ?_⟩
  have hchat : chat env ("Button组件有哪些属性？") = executeTool env
      ⟨("get_kpc_component"), some (Json.obj [(("component"), Json.str ("Button"))])⟩ := by
    simp [chat, hdet, hav]
  rw [hchat, hexec, hwrap]

/-- C6 witness: a concrete unavailable-backend environment whose transport
returns a documentation string; `chat` returns it verbatim. -/
theorem c6_amended_raw_result_witness :
    chat ⟨false, fun _ => none, fun _ => none, fun _ _ => ("Button组件文档"), (""),
        ("qwen3:8b"), ("http://localhost:11434")⟩ ("Button组件有哪些属性？")
      = ("Button组件文档") :=
  (c6_amended_raw_result
    ⟨false, fun _ => none, fun _ => none, fun _ _ => ("Button组件文档"), (""),
      ("qwen3:8b"), ("http://localhost:11434")⟩
    ("Button组件文档") rfl rfl (by decide) (by decide)).2

theorem runCalls_connected (names : List String) :
    ∀ s : ClientSt, s.connected = true →
      runCalls true names s = (s, names.map TransportEvent.transportCall) := by
  induction names with
  | nil => intro s h; rfl
  | cons n rest ih =>
    intro s h
    have hcs : callStep true n s = (s, [TransportEvent.transportCall n], false) := by
      simp [callStep, connectStep, h]
    simp [runCalls, hcs, ih s h]

theorem countConnects_append (a b : List TransportEvent) :
    countConnects (a ++ b) = countConnects a + countConnects b := by
  simp [countConnects, List.filter_append]

theorem countConnects_calls (names : List String) :
    countConnects (names.map TransportEvent.transportCall) = 0 := by
  induction names with
  | nil => rfl
  | cons n rest ih => simp [countConnects, isConnectEvent, List.filter]

/-- C7 counterexample: starting Connected with a failing channel close,
`disconnect` swallows the error but leaves the state Connected, and a second
`disconnect` closes the channel again instead of being a no-op. -/
theorem c7_counterexample :
    (disconnectStep false ⟨true⟩).1.connected = true
    ∧ (disconnectStep false (disconnectStep false ⟨true⟩).1).2
      = [TransportEvent.transportClose] := ⟨rfl, rfl⟩

/-- C7 amended: `disconnect` never throws (it is a total transition) and is a
no-op when not Connected; when Connected it closes the channel — if the close
succeeds the state becomes Disconnected and a second call is a no-op, but if
the close fails the swallowed error leaves the state Connected. -/
theorem c7_amended_disconnect :
    (∀ closeOk : Bool, disconnectStep closeOk ⟨false⟩ = (⟨false⟩, []))
    ∧ (disconnectStep true ⟨true⟩ = (⟨false⟩, [TransportEvent.transportClose])
       ∧ disconnectStep true (disconnectStep true ⟨true⟩).1
         = ((disconnectStep true ⟨true⟩).1, []))
    ∧ disconnectStep false ⟨true⟩ = (⟨true⟩, [TransportEvent.transportClose]) := by
  refine ⟨?_, ⟨rfl, rfl⟩, rfl⟩
  intro closeOk
  cases closeOk <;> rfl

/-- C8: across any nonempty sequence of capability invocations from the
Disconnected state with a succeeding transport, exactly one transport connect
is performed and the client ends Connected; and `connect()` while already
Connected is a no-op regardless of the transport outcome. -/
theorem c8_connect_once :
    (∀ names : List String, names ≠ [] →
      countConnects (runCalls true names ⟨false⟩).2 = 1
      ∧ (runCalls true names ⟨false⟩).1.connected = true)
    ∧ (∀ (s : ClientSt) (connectOk : Bool), s.connected = true →
      connectStep connectOk s = (s, [], false)) := by
  constructor
  · intro names hne
    cases names with
    | nil => exact absurd rfl hne
    | cons n rest =>
      have hcs : callStep true n ⟨false⟩
          = (⟨true⟩, [TransportEvent.transportConnect, TransportEvent.transportCall n], false) := rfl
      have hrest := runCalls_connected rest ⟨true⟩ rfl
      have hrun : runCalls true (n :: rest) ⟨false⟩
          = (⟨true⟩, [TransportEvent.transportConnect, TransportEvent.transportCall n]
              ++ rest.map TransportEvent.transportCall) := by
        simp [runCalls, hcs, hrest]
      rw [hrun]
      refine ⟨?_, rfl⟩
      rw [countConnects_append, countConnects_calls]
      rfl
  · intro s connectOk h
    cases connectOk <;> simp [connectStep, h]

/-- C8 witness: three sequential capability calls from Disconnected trigger
exactly one transport connect and leave the client Connected. -/
theorem c8_connect_once_witness :
    countConnects (runCalls true
        [("get_kpc_component"), ("get_kpc_stats"), ("search_kpc_components")] ⟨false⟩).2 = 1
    ∧ (runCalls true
        [("get_kpc_component"), ("get_kpc_stats"), ("search_kpc_components")] ⟨false⟩).1.connected
      = true :=
  c8_connect_once.1 [("get_kpc_component"), ("get_kpc_stats"), ("search_kpc_components")]
    (by decide)

/-- C9: a delivered capability response yields the first segment's text when
that segment exists with non-empty text, and the operation-specific sentinel
otherwise; later segments never influence the result, and the handlers of
`getComponent` and `searchComponents` are exactly this extraction with their
sentinels. -/
theorem c9_first_segment_contract :
    (∀ (seg : Segment) (rest : List Segment) (sentinel : String),
      seg.text ≠ ("") → extractFirstText (seg :: rest) sentinel = seg.text)
    ∧ (∀ sentinel : String, extractFirstText [] sentinel = sentinel)
    ∧ (∀ (seg : Segment) (rest : List Segment) (sentinel : String),
      seg.text = ("") → extractFirstText (seg :: rest) sentinel = sentinel)
    ∧ (∀ (seg : Segment) (r1 r2 : List Segment) (sentinel : String),
      extractFirstText (seg :: r1) sentinel = extractFirstText (seg :: r2) sentinel)
    ∧ (∀ content : List Segment,
      getComponentText content = extractFirstText content ("未获取到结果")
      ∧ searchComponentsText content = extractFirstText content ("未找到匹配的组件")) := by
  refine ⟨?_, fun _ => rfl, ?_, ?_, fun _ => ⟨rfl, rfl⟩⟩
  · intro seg rest sentinel h
    simp [extractFirstText, h]
  · intro seg rest sentinel h
    simp [extractFirstText, h]
  · intro seg r1 r2 sentinel
    simp [extractFirstText]

/-- C9 witness: a two-segment response returns the first segment's text,
ignoring the second. -/
theorem c9_first_segment_contract_witness :
    extractFirstText [⟨("text"), ("组件文档")⟩, ⟨("text"), ("忽略")⟩] ("未获取到结果")
      = ("组件文档") :=
  c9_first_segment_contract.1 ⟨("text"), ("组件文档")⟩ [⟨("text"), ("忽略")⟩]
    ("未获取到结果") (by decide)

/-- C7 witness: disconnecting while already Disconnected is a no-op. -/
theorem c7_amended_disconnect_witness :
    disconnectStep true ⟨false⟩ = (⟨false⟩, []) :=
  c7_amended_disconnect.1 true

end KPC
